import Mathlib

/-!
Shallow embedding of the M5StickC Companion v4 Satellite firmware
(file `M5StickC-Companion-v4-Satellite.ino`).

Arduino `String` values are modelled as `List Char`.  Machine integers
are modelled as `Int` or `Nat`, with an explicit reduction modulo 2^32
at the one place where 32-bit overflow matters (the base64 accumulator).
Hardware services (text-width measurement, screen geometry, font height)
are modelled as explicit parameters, and the renderer is modelled as the
list of drawString commands it emits.
-/

namespace Satellite

/-- C `isspace` over the characters that Arduino `String.trim` removes. -/
def csIsSpace (c : Char) : Bool :=
  c == ' ' || c == '\t' || c == '\n' || c == Char.ofNat 11 || c == Char.ofNat 12 || c == '\r'

/-- Arduino `String.startsWith`: the second list is the pattern. -/
def startsWithCs : List Char → List Char → Bool
  | _, [] => true
  | [], _ :: _ => false
  | c :: s, p :: ps => c == p && startsWithCs s ps

/-- Index (counting from `i`) of the first occurrence of `ch`. -/
def findChAux (ch : Char) : List Char → Nat → Option Nat
  | [], _ => none
  | c :: rest, i => if c == ch then some i else findChAux ch rest (i + 1)

/-- Arduino `String.indexOf(ch, fromIndex)`; `none` models the -1 result. -/
def indexOfChFrom (s : List Char) (ch : Char) (start : Nat) : Option Nat :=
  (findChAux ch (s.drop start) 0).map (· + start)

/-- Helper for substring search: position of the first match of `pat`. -/
def findStrAux (pat : List Char) : List Char → Nat → Option Nat
  | [], i => if startsWithCs [] pat then some i else none
  | c :: rest, i =>
    if startsWithCs (c :: rest) pat then some i else findStrAux pat rest (i + 1)

/-- Arduino `String.indexOf(pat, fromIndex)` for substrings; `none` models -1. -/
def indexOfStr (s pat : List Char) (start : Nat) : Option Nat :=
  (findStrAux pat (s.drop start) 0).map (· + start)

/-- Arduino `String.substring(a, b)`: the half-open, clamped character range. -/
def substringCs (s : List Char) (a b : Nat) : List Char :=
  (s.drop a).take (b - a)

/-- Arduino `String.trim`: remove leading and trailing whitespace. -/
def trimCs (s : List Char) : List Char :=
  ((s.dropWhile csIsSpace).reverse.dropWhile csIsSpace).reverse

/-- Accumulator for leading decimal digits, C `atol` style. -/
def digitsAcc : List Char → Nat → Nat
  | c :: rest, acc =>
    if c.isDigit then digitsAcc rest (acc * 10 + (c.toNat - 48)) else acc
  | [], acc => acc

/-- One optional leading sign, as consumed by `atol` and `strtol`: the
flag is true for a minus sign, and the rest of the string follows. -/
def signSplit : List Char → Bool × List Char
  | '-' :: rest => (true, rest)
  | '+' :: rest => (false, rest)
  | s => (false, s)

/-- C `atol`, the backend of Arduino `String.toInt`: optional whitespace,
optional sign, then the leading run of decimal digits; anything else is 0. -/
def atolCs (s : List Char) : Int :=
  let sp := signSplit (s.dropWhile csIsSpace)
  let n := digitsAcc sp.2 0
  if sp.1 then -(n : Int) else (n : Int)

/-- Hexadecimal digit test for `strtol` base 16 (0-9, a-f, A-F). -/
def isHexDigitCs (c : Char) : Bool :=
  decide (48 ≤ c.toNat ∧ c.toNat ≤ 57) || decide (97 ≤ c.toNat ∧ c.toNat ≤ 102) ||
  decide (65 ≤ c.toNat ∧ c.toNat ≤ 70)

/-- Value of one hexadecimal digit. -/
def hexVal (c : Char) : Nat :=
  if 48 ≤ c.toNat ∧ c.toNat ≤ 57 then c.toNat - 48
  else if 97 ≤ c.toNat then c.toNat - 87
  else c.toNat - 55

/-- Accumulator for leading hexadecimal digits. -/
def hexAcc : List Char → Nat → Nat
  | c :: rest, acc => if isHexDigitCs c then hexAcc rest (acc * 16 + hexVal c) else acc
  | [], acc => acc

/-- Optional 0x/0X marker accepted by `strtol` in base 16. -/
def strip0x : List Char → List Char
  | '0' :: 'x' :: rest => rest
  | '0' :: 'X' :: rest => rest
  | s => s

/-- C `strtol(s, nullptr, 16)`: optional whitespace, optional sign, optional
0x marker, then the leading run of hexadecimal digits. -/
def strtolHex (s : List Char) : Int :=
  let sp := signSplit (s.dropWhile csIsSpace)
  let n := hexAcc (strip0x sp.2) 0
  if sp.1 then -(n : Int) else (n : Int)

/-- Fuelled loop of Arduino `String.replace(pat, rep)`; fuel starts at the
string length, which suffices because every step consumes a character. -/
def replaceAllGo (pat rep : List Char) : Nat → List Char → List Char
  | 0, s => s
  | _ + 1, [] => []
  | fuel + 1, c :: rest =>
    if pat ≠ [] ∧ startsWithCs (c :: rest) pat = true then
      rep ++ replaceAllGo pat rep fuel ((c :: rest).drop pat.length)
    else
      c :: replaceAllGo pat rep fuel rest

/-- Arduino `String.replace(pat, rep)`: replace every occurrence. -/
def replaceAll (pat rep s : List Char) : List Char :=
  replaceAllGo pat rep s.length s

/-- The COLOR field key. -/
def colorKey : List Char := ['C', 'O', 'L', 'O', 'R']

/-- The TEXTCOLOR field key. -/
def textColorKey : List Char := ['T', 'E', 'X', 'T', 'C', 'O', 'L', 'O', 'R']

/-- Opening token of the rgb functional form. -/
def rgbOpenTok : List Char := ['r', 'g', 'b', '(']

/-- Opening token of the rgba functional form. -/
def rgbaOpenTok : List Char := ['r', 'g', 'b', 'a', '(']

/-- Body of `parseColorToken` acting on the extracted value token: empty
check, one layer of quote stripping, then the rgb()/rgba() functional form,
then #RRGGBB, then the decimal CSV form, exactly as in the source. -/
def parseColorValue (val0 : List Char) : Option (Int × Int × Int) :=
  if val0 = [] then none
  else
    let val :=
      if 2 ≤ val0.length ∧ val0.getD 0 (Char.ofNat 0) = '"' ∧
          val0.getD (val0.length - 1) (Char.ofNat 0) = '"' then
        (val0.drop 1).take (val0.length - 2)
      else val0
    if startsWithCs val rgbOpenTok || startsWithCs val rgbaOpenTok then
      let c := replaceAll [' '] []
        (replaceAll [')'] [] (replaceAll rgbOpenTok [] (replaceAll rgbaOpenTok [] val)))
      match findChAux ',' c 0 with
      | none => none
      | some p1 =>
        match indexOfChFrom c ',' (p1 + 1) with
        | none => none
        | some p2 =>
          let r := atolCs (c.take p1)
          let g := atolCs (substringCs c (p1 + 1) p2)
          let b :=
            match indexOfChFrom c ',' (p2 + 1) with
            | some p3 => atolCs (substringCs c (p2 + 1) p3)
            | none => atolCs (c.drop (p2 + 1))
          some (r, g, b)
    else if val.getD 0 (Char.ofNat 0) = '#' then
      if val.length < 7 then none
      else
        some (strtolHex (substringCs val 1 3), strtolHex (substringCs val 3 5),
          strtolHex (substringCs val 5 7))
    else
      match findChAux ',' val 0 with
      | none => none
      | some c1 =>
        match indexOfChFrom val ',' (c1 + 1) with
        | none => none
        | some c2 =>
          some (atolCs (val.take c1), atolCs (substringCs val (c1 + 1) c2),
            atolCs (val.drop (c2 + 1)))

/-- The firmware color parser `parseColorToken(line, key, r, g, b)`.
The `false` return of the source, which leaves the out-parameters
untouched, is modelled as `none`.  Note the source looks the key up with
`String.indexOf`, a plain substring search. -/
def parseColorToken (line key : List Char) : Option (Int × Int × Int) :=
  match indexOfStr line key 0 with
  | none => none
  | some pos0 =>
    let pos1 := pos0 + key.length
    let pos :=
      if pos1 < line.length ∧ line.getD pos1 (Char.ofNat 0) = '=' then pos1 + 1 else pos1
    let e := (indexOfChFrom line ' ' pos).getD line.length
    parseColorValue (trimCs (substringCs line pos e))

/-- M5GFX `color565(r, g, b)`, including the implicit C conversion of the
int arguments to uint8, which reduces each channel modulo 256. -/
def color565 (r g b : Int) : Nat :=
  let r8 := (r % 256).toNat
  let g8 := (g % 256).toNat
  let b8 := (b % 256).toNat
  r8 / 8 * 2048 + g8 / 4 * 32 + b8 / 8

/-- The two colors of TEXT mode: `bgColor` and `txtColor` globals. -/
structure TextColors where
  bgColor : Nat
  txtColor : Nat
  deriving DecidableEq

/-- The firmware `handleTextModeColors(line)`: the COLOR field updates the
background, the TEXTCOLOR field updates the foreground, a failed parse
leaves the stored color unchanged. -/
def handleTextModeColors (line : List Char) (st : TextColors) : TextColors :=
  let st1 :=
    match parseColorToken line colorKey with
    | some (r, g, b) => { st with bgColor := color565 r g b }
    | none => st
  match parseColorToken line textColorKey with
  | some (r, g, b) => { st1 with txtColor := color565 r g b }
  | none => st1

/-- The text-size tier selected by `analyseLayout` via the font setters
`setExtraBigFont`, `setUltraFont`, `setLargeFont`, `setNormalFont`. -/
inductive Tier where
  | extraBig
  | ultra
  | large
  | normal
  deriving DecidableEq

/-- The text layout globals written by `analyseLayout`: `tier` records which
font setter the call invoked (`none` when it invoked none, as happens for
the empty string). -/
structure LayoutState where
  tier : Option Tier
  line1 : List Char
  line2 : List Char
  line3 : List Char
  numLines : Nat
  useManualLines : Bool
  manualLines : List (List Char)
  deriving DecidableEq

/-- The auto-wrap line cap `MAX_AUTO_LINES`. -/
def MAX_AUTO_LINES : Nat := 7

/-- Fuelled word-splitting loop of `wrapToLines`: repeatedly take the text
up to the next space, keep it when non-empty, and continue past the space.
Fuel starts at the string length; every step consumes a character. -/
def splitWordsGo : Nat → List Char → List (List Char)
  | 0, _ => []
  | fuel + 1, s =>
    if s = [] then []
    else
      let space := (findChAux ' ' s 0).getD s.length
      let w := s.take space
      (if w = [] then [] else [w]) ++ splitWordsGo fuel (s.drop (space + 1))

/-- Word splitting as performed by the loop in `wrapToLines`. -/
def splitWords (s : List Char) : List (List Char) :=
  splitWordsGo s.length s

/-- The word-accumulation loop of `wrapToLines`.  `tw` is the display
text-width callback `M5.Display.textWidth` for the current font, `buf` the
seven line buffers, `cur` the index `currentLine`.  `none` models the
`return false` (wrap failure). -/
def wrapWords (tw : List Char → Nat) (screenW : Nat) :
    List (List Char) → List (List Char) → Nat → Option (List (List Char) × Nat)
  | [], buf, cur => some (buf, cur)
  | w :: ws, buf, cur =>
    if MAX_AUTO_LINES ≤ cur then none
    else
      let candidate :=
        if buf.getD cur [] = [] then w else buf.getD cur [] ++ [' '] ++ w
      if tw candidate ≤ screenW then
        wrapWords tw screenW ws (buf.set cur candidate) cur
      else if MAX_AUTO_LINES ≤ cur + 1 then none
      else wrapWords tw screenW ws (buf.set (cur + 1) w) (cur + 1)

/-- The firmware `wrapToLines(src, l1, l2, l3, outLines)`: greedy word wrap
into up to `MAX_AUTO_LINES` lines, returning the first three lines and the
line count; `none` models the `false` return (the caller then ignores the
out-parameters). -/
def wrapToLines (tw : List Char → Nat) (screenW : Nat) (src : List Char) :
    Option (List Char × List Char × List Char × Nat) :=
  if src = [] then some ([], [], [], 0)
  else
    match wrapWords tw screenW (splitWords src) (List.replicate MAX_AUTO_LINES []) 0 with
    | none => none
    | some (buf, cur) =>
      let outLines := cur + 1
      some (buf.getD 0 [],
        if 2 ≤ outLines then buf.getD 1 [] else [],
        if 3 ≤ outLines then buf.getD 2 [] else [],
        outLines)

/-- Fuelled manual-newline splitting loop of `analyseLayout`: split on every
newline, keeping empty segments.  Fuel starts at the string length. -/
def splitLinesGo : Nat → List Char → List (List Char)
  | 0, s => [s]
  | fuel + 1, s =>
    match findChAux '\n' s 0 with
    | none => [s]
    | some i => s.take i :: splitLinesGo fuel (s.drop (i + 1))

/-- Manual-newline splitting as performed by the loop in `analyseLayout`. -/
def splitLines (s : List Char) : List (List Char) :=
  splitLinesGo s.length s

/-- The firmware `analyseLayout()`: manual newline lines capped at 5, then
the length-driven single-line tiers, then greedy auto-wrap, then the
single-clipped-line fallback when wrapping fails. -/
def analyseLayout (tw : List Char → Nat) (screenW : Nat) (currentText : List Char) :
    LayoutState :=
  if currentText.length = 0 then
    ⟨none, [], [], [], 0, false, []⟩
  else if (indexOfChFrom currentText '\n' 0).isSome then
    let ml := splitLines currentText
    let ml := if 5 < ml.length then ml.take 5 else ml
    ⟨some Tier.normal, [], [], [], 0, true, ml⟩
  else if currentText.length ≤ 2 then
    ⟨some Tier.extraBig, currentText, [], [], 1, false, []⟩
  else if currentText.length = 3 then
    ⟨some Tier.ultra, currentText, [], [], 1, false, []⟩
  else if currentText.length ≤ 6 then
    ⟨some Tier.large, currentText, [], [], 1, false, []⟩
  else
    match wrapToLines tw screenW currentText with
    | some (w1, w2, w3, lines) =>
      if 0 < lines ∧ lines ≤ MAX_AUTO_LINES then
        ⟨some Tier.normal, w1, if 2 ≤ lines then w2 else [],
          if 3 ≤ lines then w3 else [], lines, false, []⟩
      else
        ⟨some Tier.normal, currentText, [], [], 1, false, []⟩
    | none =>
      ⟨some Tier.normal, currentText, [], [], 1, false, []⟩

/-- One emitted `M5.Display.drawString(text, x, y)` call. -/
structure DrawCmd where
  text : List Char
  x : Int
  y : Int
  deriving DecidableEq

/-- The firmware `refreshTextDisplay()`, modelled as the list of drawString
calls it emits (screen clearing and the pressed border are omitted; they
draw no text).  `lineHeight` is `M5.Display.fontHeight()` for the normal
font, the one queried by the two multi-line branches. -/
def refreshTextDisplay (lineHeight screenW screenH : Int)
    (currentText : List Char) (ls : LayoutState) : List DrawCmd :=
  if currentText.length = 0 then []
  else if ls.useManualLines then
    let n := ls.manualLines.length
    let totalHeight := lineHeight * (n : Int)
    let topY := Int.tdiv (screenH - totalHeight) 2 + Int.tdiv lineHeight 2
    (List.range n).map fun i =>
      ⟨ls.manualLines.getD i [], Int.tdiv screenW 2, topY + (i : Int) * lineHeight⟩
  else if currentText.length ≤ 2 then
    [⟨currentText, Int.tdiv screenW 2, Int.tdiv screenH 2⟩]
  else if currentText.length = 3 then
    [⟨currentText, Int.tdiv screenW 2, Int.tdiv screenH 2⟩]
  else if currentText.length ≤ 6 then
    [⟨currentText, Int.tdiv screenW 2, Int.tdiv screenH 2⟩]
  else if 1 ≤ ls.numLines ∧ ls.numLines ≤ MAX_AUTO_LINES then
    let stored := [ls.line1, ls.line2, ls.line3]
    let totalHeight := lineHeight * (ls.numLines : Int)
    let topY := Int.tdiv (screenH - totalHeight) 2 + Int.tdiv lineHeight 2
    (List.range (min ls.numLines 3)).map fun i =>
      ⟨stored.getD i [], Int.tdiv screenW 2, topY + (i : Int) * lineHeight⟩
  else []

/-- The base64 table `B64_TABLE`. -/
def b64Table : List Char :=
  ['A', 'B', 'C', 'D', 'E', 'F', 'G', 'H', 'I', 'J', 'K', 'L', 'M',
   'N', 'O', 'P', 'Q', 'R', 'S', 'T', 'U', 'V', 'W', 'X', 'Y', 'Z',
   'a', 'b', 'c', 'd', 'e', 'f', 'g', 'h', 'i', 'j', 'k', 'l', 'm',
   'n', 'o', 'p', 'q', 'r', 's', 't', 'u', 'v', 'w', 'x', 'y', 'z',
   '0', '1', '2', '3', '4', '5', '6', '7', '8', '9', '+', '/']

/-- Character of the base64 table at position `i` (for `i < 64`). -/
def b64Tbl (i : Nat) : Char :=
  b64Table.getD i 'A'

/-- The firmware `b64Index(c)`: position of `c` in `B64_TABLE` via `strchr`,
-1 when absent.  `strchr` also finds the NUL terminator, so the NUL
character maps to index 64. -/
def b64Index (c : Char) : Int :=
  if c = Char.ofNat 0 then 64
  else
    match findChAux c b64Table 0 with
    | some i => (i : Int)
    | none => -1

/-- The character loop of the firmware `decodeBase64`: `val` is the 32-bit
bit accumulator (kept reduced modulo 2^32 = 4294967296, matching the int
wraparound of `val << 6`), `valb` the signed bit counter.  A padding
character or a character outside the table stops decoding, returning what
was accumulated so far (here: the bytes already emitted by earlier
iterations).  The source locals `val` and `valb` after one iteration are
written inline. -/
def decodeB64Loop : List Char → Nat → Int → List Nat
  | [], _, _ => []
  | c :: cs, val, valb =>
    if c = '=' then []
    else if b64Index c < 0 then []
    else if 0 ≤ valb + 6 then
      ((val * 64 + (b64Index c).toNat) % 4294967296 / 2 ^ (valb + 6).toNat % 256)
        :: decodeB64Loop cs ((val * 64 + (b64Index c).toNat) % 4294967296) (valb + 6 - 8)
    else
      decodeB64Loop cs ((val * 64 + (b64Index c).toNat) % 4294967296) (valb + 6)

/-- The firmware `decodeBase64(input)`, as the list of decoded bytes. -/
def decodeBase64 (input : List Char) : List Nat :=
  decodeB64Loop input 0 (-8)

/-- Modelled from the spec: the standard base64 encoder referenced by the
round-trip property (`encodeBase64` is not part of the firmware source).
Standard alphabet, big-endian bit packing, `=` padding for the 1-byte and
2-byte tails. -/
def encodeBase64 : List Nat → List Char
  | [] => []
  | [a] => [b64Tbl (a / 4), b64Tbl (a % 4 * 16), '=', '=']
  | [a, b] => [b64Tbl (a / 4), b64Tbl (a % 4 * 16 + b / 16), b64Tbl (b % 16 * 4), '=']
  | a :: b :: c :: rest =>
    b64Tbl (a / 4) :: b64Tbl (a % 4 * 16 + b / 16) :: b64Tbl (b % 16 * 4 + c / 64) ::
      b64Tbl (c % 64) :: encodeBase64 rest

/-- The looks-like-base64 character test of `decodeCompanionText`. -/
def isB64CharOrPad (c : Char) : Bool :=
  decide ('A' ≤ c ∧ c ≤ 'Z') || decide ('a' ≤ c ∧ c ≤ 'z') ||
  decide ('0' ≤ c ∧ c ≤ '9') || c == '+' || c == '/' || c == '='

/-- The firmware `decodeCompanionText(encoded)`: a token with a character
outside the base64 alphabet (ignoring padding) is returned unchanged, an
empty decode of a non-empty token falls back to the raw token, otherwise
the decoded bytes are returned as characters. -/
def decodeCompanionText (encoded : List Char) : List Char :=
  if encoded.length = 0 then encoded
  else
    let looksBase64 := encoded.all isB64CharOrPad
    if looksBase64 = false then encoded
    else
      let decoded := (decodeBase64 encoded).map Char.ofNat
      if decoded.length = 0 then encoded
      else decoded

/-- The display-brightness portion of the dispatcher state: the global
`brightness` and the level last passed to `M5.Display.setBrightness`. -/
structure BrightnessState where
  brightness : Int
  dispLevel : Nat
  deriving DecidableEq

/-- The firmware `applyDisplayBrightness()`: clamp the stored brightness to
0..100, then `map(p, 0, 100, 0, 255)`, the level handed to the display. -/
def applyDisplayBrightness (brightness : Int) : Nat :=
  let p := if brightness < 0 then 0 else brightness
  let p2 := if 100 < p then 100 else p
  p2.toNat * 255 / 100

/-- The BRIGHTNESS token. -/
def brightnessTok : List Char :=
  ['B', 'R', 'I', 'G', 'H', 'T', 'N', 'E', 'S', 'S']

/-- The VALUE= token. -/
def valueTok : List Char := ['V', 'A', 'L', 'U', 'E', '=']

/-- The PONG token. -/
def pongTok : List Char := ['P', 'O', 'N', 'G']

/-- The PING token. -/
def pingTok : List Char := ['P', 'I', 'N', 'G']

/-- The firmware `parseAPI(apiData)` restricted to its action on the
brightness state.  The BRIGHTNESS branch is the only branch of `parseAPI`
that writes `brightness` or calls `applyDisplayBrightness`; the guards
before it are kept, and the remaining branches (KEYS-CLEAR, KEY-STATE,
unrecognized) leave the brightness state untouched. -/
def parseAPIBrightness (apiData : List Char) (st : BrightnessState) : BrightnessState :=
  if apiData.length = 0 then st
  else if startsWithCs apiData pongTok then st
  else if startsWithCs apiData pingTok then st
  else if startsWithCs apiData brightnessTok then
    match indexOfStr apiData valueTok 0 with
    | some valPos =>
      let v := trimCs (apiData.drop (valPos + 6))
      let b := atolCs v
      ⟨b, applyDisplayBrightness b⟩
    | none => st
  else st

/-- Result of the bitmap-dimension inference in `handleKeyState`. -/
inductive BitmapKind where
  | rgbFrame (side : Nat)
  | rgbaFrame (side : Nat)
  | reject
  deriving DecidableEq

/-- The dimension inference of the BITMAP branch of `handleKeyState`:
`sizeRGB = sqrt(len / 3)` and `sizeRGBA = sqrt(len / 4)` with integer
division and integer square root, RGB tested first. -/
def inferBitmap (len : Nat) : BitmapKind :=
  let sizeRGB := Nat.sqrt (len / 3)
  let sizeRGBA := Nat.sqrt (len / 4)
  if sizeRGB * sizeRGB * 3 = len then BitmapKind.rgbFrame sizeRGB
  else if sizeRGBA * sizeRGBA * 4 = len then BitmapKind.rgbaFrame sizeRGBA
  else BitmapKind.reject

/-- The RGBA-to-RGB conversion loop of `handleKeyState`: per pixel, copy
three bytes and skip the alpha byte. -/
def dropAlpha : List Nat → List Nat
  | r :: g :: b :: _ :: rest => r :: g :: b :: dropAlpha rest
  | _ => []

/-- The BITMAP rendering decision of `handleKeyState`, given the decoded
payload bytes: `some (side, rgbBytes)` is a full-screen RGB draw of a
`side` by `side` frame, `none` a discarded frame (no render). -/
def handleBitmapPayload (bytes : List Nat) : Option (Nat × List Nat) :=
  match inferBitmap bytes.length with
  | BitmapKind.rgbFrame s => some (s, bytes)
  | BitmapKind.rgbaFrame s => some (s, dropAlpha bytes)
  | BitmapKind.reject => none

example : decodeBase64 ['V', 'E', 'V', 'T', 'V', 'A', '=', '=']
    = [84, 69, 83, 84] := by decide

example : decodeBase64 (encodeBase64 [84, 69, 83, 84]) = [84, 69, 83, 84] := by decide

example : decodeBase64 (encodeBase64 [255, 0, 17, 92, 200]) = [255, 0, 17, 92, 200] := by
  decide

example : parseAPIBrightness
    ['B', 'R', 'I', 'G', 'H', 'T', 'N', 'E', 'S', 'S', ' ',
     'V', 'A', 'L', 'U', 'E', '=', '1', '5', '0'] ⟨100, 255⟩
    = ⟨150, 255⟩ := by decide

example : analyseLayout (fun l => 10 * l.length) 160 ['G', 'O']
    = ⟨some Tier.extraBig, ['G', 'O'], [], [], 1, false, []⟩ := by decide

example : analyseLayout (fun l => 10 * l.length) 160 []
    = ⟨none, [], [], [], 0, false, []⟩ := by decide

example : wrapToLines (fun _ => 1000) 160
    ['H', 'E', 'L', 'L', 'O', ' ', 'W', 'O', 'R', 'L', 'D', ' ', 'T', 'H', 'I', 'S',
     ' ', 'I', 'S', ' ', 'A', ' ', 'L', 'O', 'N', 'G', ' ', 'L', 'A', 'B', 'E', 'L']
    = none := by decide

example : wrapToLines (fun l => 30 * l.length) 160
    ['A', 'A', 'A', 'A', ' ', 'B', 'B', 'B', 'B', ' ', 'C', 'C', 'C', 'C', ' ',
     'D', 'D', 'D', 'D']
    = some (['A', 'A', 'A', 'A'], ['B', 'B', 'B', 'B'], ['C', 'C', 'C', 'C'], 4) := by
  decide

example : handleBitmapPayload [1, 2, 3, 4] = some (1, [1, 2, 3]) := by decide

example : handleBitmapPayload [1, 2, 3, 4, 5] = none := by decide

example : inferBitmap 15552 = BitmapKind.rgbFrame 72 := by
  have h1 : (15552 / 3 : Nat) = 72 * 72 := by norm_num
  have h2 : Nat.sqrt (72 * 72) = 72 := Nat.sqrt_eq 72
  simp [inferBitmap, h1, h2]

/-- C9: the color token parser maps the hex form COLOR=#FF0000 to
(255,0,0), the decimal CSV form COLOR=0,128,255 to (0,128,255), and the
functional form COLOR=rgba(10,20,30,255) to (10,20,30) with the alpha
component ignored; a line in which the COLOR key is missing yields absent
(modelled as `none`), not the triple (0,0,0). -/
theorem c9_color_token_forms :
    parseColorToken
      ['C', 'O', 'L', 'O', 'R', '=', '#', 'F', 'F', '0', '0', '0', '0'] colorKey
      = some (255, 0, 0) ∧
    parseColorToken
      ['C', 'O', 'L', 'O', 'R', '=', '0', ',', '1', '2', '8', ',', '2', '5', '5'] colorKey
      = some (0, 128, 255) ∧
    parseColorToken
      ['C', 'O', 'L', 'O', 'R', '=', 'r', 'g', 'b', 'a', '(', '1', '0', ',', '2', '0',
       ',', '3', '0', ',', '2', '5', '5', ')'] colorKey
      = some (10, 20, 30) ∧
    parseColorToken
      ['K', 'E', 'Y', '-', 'S', 'T', 'A', 'T', 'E', ' ', 'T', 'E', 'X', 'T', '=',
       '"', 'A', '"'] colorKey
      = none := by decide

/-- C1 counterexample: the line KEY-STATE TEXTCOLOR=#112233 contains no
COLOR field (its space-separated fields are KEY-STATE and
TEXTCOLOR=#112233, and no field starts with COLOR=), yet the color token
parser finds the COLOR key inside TEXTCOLOR and returns a triple, and
dispatch overwrites the stored background color. -/
theorem c1_counterexample :
    splitWords
        ['K', 'E', 'Y', '-', 'S', 'T', 'A', 'T', 'E', ' ', 'T', 'E', 'X', 'T', 'C',
         'O', 'L', 'O', 'R', '=', '#', '1', '1', '2', '2', '3', '3']
      = [['K', 'E', 'Y', '-', 'S', 'T', 'A', 'T', 'E'],
         ['T', 'E', 'X', 'T', 'C', 'O', 'L', 'O', 'R', '=', '#', '1', '1', '2', '2',
          '3', '3']] ∧
    (splitWords
        ['K', 'E', 'Y', '-', 'S', 'T', 'A', 'T', 'E', ' ', 'T', 'E', 'X', 'T', 'C',
         'O', 'L', 'O', 'R', '=', '#', '1', '1', '2', '2', '3', '3']).all
      (fun f => ¬ startsWithCs f (colorKey ++ ['='])) ∧
    parseColorToken
        ['K', 'E', 'Y', '-', 'S', 'T', 'A', 'T', 'E', ' ', 'T', 'E', 'X', 'T', 'C',
         'O', 'L', 'O', 'R', '=', '#', '1', '1', '2', '2', '3', '3'] colorKey
      = some (17, 34, 51) ∧
    (handleTextModeColors
        ['K', 'E', 'Y', '-', 'S', 'T', 'A', 'T', 'E', ' ', 'T', 'E', 'X', 'T', 'C',
         'O', 'L', 'O', 'R', '=', '#', '1', '1', '2', '2', '3', '3']
        ⟨0, 65535⟩).bgColor ≠ 0 := by decide

/-- C1 amended: if the key does not occur as a substring of the line, the
color token parser returns absent (the key occurring only inside another
key such as TEXTCOLOR already counts as an occurrence, which is what the
counterexample exploits; the parser can also return absent for other
reasons, such as an unparseable value); whenever the parser returns absent
for COLOR the stored background color is unchanged by dispatch, and
whenever it returns absent for TEXTCOLOR the stored foreground color is
unchanged. -/
theorem c1_absent_preserves_colors (line : List Char) (st : TextColors) :
    (indexOfStr line colorKey 0 = none → parseColorToken line colorKey = none) ∧
    (parseColorToken line colorKey = none →
      (handleTextModeColors line st).bgColor = st.bgColor) ∧
    (parseColorToken line textColorKey = none →
      (handleTextModeColors line st).txtColor = st.txtColor) := by
  refine ⟨fun h => ?_, fun h => ?_, fun h => ?_⟩
  · unfold parseColorToken
    rw [h]
  · unfold handleTextModeColors
    rw [h]
    cases parseColorToken line textColorKey with
    | none => rfl
    | some v => obtain ⟨r, g, b⟩ := v; rfl
  · unfold handleTextModeColors
    rw [h]
    cases parseColorToken line colorKey with
    | none => rfl
    | some v => obtain ⟨r, g, b⟩ := v; rfl

/-- C1 witness: the amended theorem applied to the line TEXT="A", whose
text contains neither color key, from stored colors (7, 9). -/
theorem c1_absent_preserves_colors_witness :
    parseColorToken ['T', 'E', 'X', 'T', '=', '"', 'A', '"'] colorKey = none ∧
    (handleTextModeColors ['T', 'E', 'X', 'T', '=', '"', 'A', '"'] ⟨7, 9⟩).bgColor = 7 ∧
    (handleTextModeColors ['T', 'E', 'X', 'T', '=', '"', 'A', '"'] ⟨7, 9⟩).txtColor = 9 :=
  ⟨(c1_absent_preserves_colors ['T', 'E', 'X', 'T', '=', '"', 'A', '"'] ⟨7, 9⟩).1
      (by decide),
   (c1_absent_preserves_colors ['T', 'E', 'X', 'T', '=', '"', 'A', '"'] ⟨7, 9⟩).2.1
      (by decide),
   (c1_absent_preserves_colors ['T', 'E', 'X', 'T', '=', '"', 'A', '"'] ⟨7, 9⟩).2.2
      (by decide)⟩

/-- C2 counterexample: dispatching BRIGHTNESS VALUE=150 stores 150 in the
brightness variable with no clamping, so after dispatch the stored value
lies outside 0..100 (the clamping happens only inside the apply callback,
which passed 255 to the display here). -/
theorem c2_counterexample :
    parseAPIBrightness
        ['B', 'R', 'I', 'G', 'H', 'T', 'N', 'E', 'S', 'S', ' ',
         'V', 'A', 'L', 'U', 'E', '=', '1', '5', '0'] ⟨100, 255⟩
      = ⟨150, 255⟩ ∧
    ¬ (parseAPIBrightness
        ['B', 'R', 'I', 'G', 'H', 'T', 'N', 'E', 'S', 'S', ' ',
         'V', 'A', 'L', 'U', 'E', '=', '1', '5', '0'] ⟨100, 255⟩).brightness ≤ 100 := by
  decide

/-- C3 counterexample: the color token parser performs no range check, so
COLOR=999,0,0 produces the triple (999, 0, 0) whose red channel exceeds
255. -/
theorem c3_counterexample :
    parseColorToken
        ['C', 'O', 'L', 'O', 'R', '=', '9', '9', '9', ',', '0', ',', '0'] colorKey
      = some (999, 0, 0) ∧
    ¬ (999 : Int) ≤ 255 := by decide

/-- C8: for every decoded bitmap payload, if side = sqrt(length / 3)
satisfies side * side * 3 = length the frame is rendered as RGB with that
side (RGB takes precedence since this test runs first, and length 15552
infers side 72); otherwise, if side = sqrt(length / 4) satisfies
side * side * 4 = length, it is rendered as RGBA with the alpha byte of
each pixel dropped; and if neither equation holds the frame is discarded
with no render. -/
theorem c8_bitmap_inference (bytes : List Nat) (s : Nat) :
    (bytes.length = s * s * 3 → handleBitmapPayload bytes = some (s, bytes)) ∧
    (Nat.sqrt (bytes.length / 3) * Nat.sqrt (bytes.length / 3) * 3 ≠ bytes.length →
      bytes.length = s * s * 4 → handleBitmapPayload bytes = some (s, dropAlpha bytes)) ∧
    (Nat.sqrt (bytes.length / 3) * Nat.sqrt (bytes.length / 3) * 3 ≠ bytes.length →
      Nat.sqrt (bytes.length / 4) * Nat.sqrt (bytes.length / 4) * 4 ≠ bytes.length →
      handleBitmapPayload bytes = none) ∧
    (bytes.length = 15552 → handleBitmapPayload bytes = some (72, bytes)) := by
  have main : ∀ t : Nat, bytes.length = t * t * 3 →
      handleBitmapPayload bytes = some (t, bytes) := by
    intro t ht
    have hdiv : bytes.length / 3 = t * t := by omega
    have hsq : Nat.sqrt (bytes.length / 3) = t := by rw [hdiv, Nat.sqrt_eq]
    unfold handleBitmapPayload inferBitmap
    rw [hsq, if_pos (by omega)]
  refine ⟨main s, fun h3 h4 => ?_, fun h3 h4 => ?_, fun h => main 72 (by omega)⟩
  · have hdiv : bytes.length / 4 = s * s := by omega
    have hsq : Nat.sqrt (bytes.length / 4) = s := by rw [hdiv, Nat.sqrt_eq]
    unfold handleBitmapPayload inferBitmap
    rw [if_neg h3, hsq, if_pos (by omega)]
  · unfold handleBitmapPayload inferBitmap
    rw [if_neg h3, if_neg h4]

/-- C8 witness: the inference applied to four concrete payloads: a 12-byte
RGB frame of side 2, a 4-byte RGBA pixel whose alpha byte is dropped, a
5-byte payload that is discarded, and a 15552-byte payload rendered as RGB
with side 72. -/
theorem c8_bitmap_inference_witness :
    handleBitmapPayload [9, 9, 9, 9, 9, 9, 9, 9, 9, 9, 9, 9]
      = some (2, [9, 9, 9, 9, 9, 9, 9, 9, 9, 9, 9, 9]) ∧
    handleBitmapPayload [1, 2, 3, 4] = some (1, dropAlpha [1, 2, 3, 4]) ∧
    handleBitmapPayload [1, 2, 3, 4, 5] = none ∧
    handleBitmapPayload (List.replicate 15552 0) = some (72, List.replicate 15552 0) :=
  ⟨(c8_bitmap_inference [9, 9, 9, 9, 9, 9, 9, 9, 9, 9, 9, 9] 2).1 (by decide),
   (c8_bitmap_inference [1, 2, 3, 4] 1).2.1 (by decide) (by decide),
   (c8_bitmap_inference [1, 2, 3, 4, 5] 0).2.2.1 (by decide) (by decide),
   (c8_bitmap_inference (List.replicate 15552 0) 72).2.2.2
      (by rw [List.length_replicate])⟩

/-- Helper: a line that starts with BRIGHTNESS is non-empty and starts with
neither PONG nor PING. -/
theorem brightness_line_facts (line : List Char)
    (h : startsWithCs line brightnessTok = true) :
    ¬ line.length = 0 ∧ startsWithCs line pongTok = false ∧
      startsWithCs line pingTok = false := by
  cases line with
  | nil => simp [startsWithCs, brightnessTok] at h
  | cons c rest =>
    simp only [startsWithCs, brightnessTok, Bool.and_eq_true, beq_iff_eq] at h
    obtain ⟨rfl, -⟩ := h
    refine ⟨by simp, ?_, ?_⟩ <;> simp [startsWithCs, pongTok, pingTok]

/-- Helper: the applied display level is at most 255 for every stored
brightness, because the apply callback clamps to 0..100 first. -/
theorem applyDisplayBrightness_le (b : Int) : applyDisplayBrightness b ≤ 255 := by
  simp only [applyDisplayBrightness]
  split <;> split <;> omega

/-- C2 amended: dispatching a BRIGHTNESS line containing VALUE= stores the
parsed integer with no clamping and invokes the brightness-apply callback
in the same dispatch; the callback clamps its input to 0..100 before
mapping it to the display, so the applied display level (not the stored
value) always lies between 0 and 255. -/
theorem c2_brightness_store_and_level (line : List Char) (st : BrightnessState)
    (v : Nat) (hb : startsWithCs line brightnessTok = true)
    (hv : indexOfStr line valueTok 0 = some v) :
    parseAPIBrightness line st =
      ⟨atolCs (trimCs (line.drop (v + 6))),
        applyDisplayBrightness (atolCs (trimCs (line.drop (v + 6))))⟩ ∧
    ∀ b : Int, applyDisplayBrightness b ≤ 255 := by
  obtain ⟨hne, hpong, hping⟩ := brightness_line_facts line hb
  refine ⟨?_, applyDisplayBrightness_le⟩
  unfold parseAPIBrightness
  rw [if_neg hne, if_neg (by simp [hpong]), if_neg (by simp [hping]), if_pos hb, hv]

/-- C2 witness: the amended theorem applied to BRIGHTNESS VALUE=150 from
stored brightness 100; the stored value becomes 150 (unclamped) while the
applied display level is 255. -/
theorem c2_brightness_store_and_level_witness :
    parseAPIBrightness
        ['B', 'R', 'I', 'G', 'H', 'T', 'N', 'E', 'S', 'S', ' ',
         'V', 'A', 'L', 'U', 'E', '=', '1', '5', '0'] ⟨100, 255⟩
      = ⟨150, 255⟩ :=
  ((c2_brightness_store_and_level
      ['B', 'R', 'I', 'G', 'H', 'T', 'N', 'E', 'S', 'S', ' ',
       'V', 'A', 'L', 'U', 'E', '=', '1', '5', '0'] ⟨100, 255⟩ 11
      (by decide) (by decide)).1).trans (by decide)

/-- Helper: a hexadecimal digit has value at most 15. -/
theorem hexVal_le_15 (c : Char) (h : isHexDigitCs c = true) : hexVal c ≤ 15 := by
  unfold isHexDigitCs at h
  simp only [Bool.or_eq_true, decide_eq_true_eq] at h
  unfold hexVal
  split
  · omega
  · split <;> omega

/-- Helper: the hexadecimal accumulator grows by at most a factor of 16 per
remaining character. -/
theorem hexAcc_lt (s : List Char) : ∀ acc : Nat, hexAcc s acc < (acc + 1) * 16 ^ s.length := by
  induction s with
  | nil => intro acc; simp [hexAcc]
  | cons c rest ih =>
    intro acc
    unfold hexAcc
    split
    · next h =>
      calc hexAcc rest (acc * 16 + hexVal c)
          < (acc * 16 + hexVal c + 1) * 16 ^ rest.length := ih _
        _ ≤ ((acc + 1) * 16) * 16 ^ rest.length := by
            have := hexVal_le_15 c h
            exact Nat.mul_le_mul_right _ (by omega)
        _ = (acc + 1) * 16 ^ (c :: rest).length := by
            simp [List.length_cons, pow_succ]; ring
    · have h16 : (1 : Nat) ≤ 16 ^ (c :: rest).length := Nat.one_le_pow _ _ (by norm_num)
      calc acc < acc + 1 := Nat.lt_succ_self acc
        _ ≤ (acc + 1) * 16 ^ (c :: rest).length := Nat.le_mul_of_pos_right _ (by omega)

/-- Helper: stripping the 0x marker never lengthens a string. -/
theorem strip0x_length_le (s : List Char) : (strip0x s).length ≤ s.length := by
  unfold strip0x
  split <;> simp <;> omega

/-- Helper: dropping a prefix of whitespace never lengthens a string. -/
theorem dropWhile_length_le (p : Char → Bool) (s : List Char) :
    (s.dropWhile p).length ≤ s.length := by
  induction s with
  | nil => simp
  | cons c rest ih =>
    cases h : p c
    · simp [List.dropWhile, h]
    · simp only [List.dropWhile, h, List.length_cons]
      omega

/-- Helper: the sign splitter never lengthens a string. -/
theorem signSplit_snd_length_le (s : List Char) : (signSplit s).2.length ≤ s.length := by
  unfold signSplit
  split <;> simp

/-- Helper: `strtol` base 16 on a string of at most two characters yields a
value in -255..255. -/
theorem strtolHex_bound (s : List Char) (h : s.length ≤ 2) :
    -255 ≤ strtolHex s ∧ strtolHex s ≤ 255 := by
  have h1 : (s.dropWhile csIsSpace).length ≤ 2 :=
    le_trans (dropWhile_length_le _ _) h
  have h2 : ((signSplit (s.dropWhile csIsSpace)).2).length ≤ 2 :=
    le_trans (signSplit_snd_length_le _) h1
  have h3 : (strip0x (signSplit (s.dropWhile csIsSpace)).2).length ≤ 2 :=
    le_trans (strip0x_length_le _) h2
  have h4 : hexAcc (strip0x (signSplit (s.dropWhile csIsSpace)).2) 0 < 256 := by
    have h5 := hexAcc_lt (strip0x (signSplit (s.dropWhile csIsSpace)).2) 0
    have h6 : (16 : Nat) ^ (strip0x (signSplit (s.dropWhile csIsSpace)).2).length ≤ 16 ^ 2 :=
      Nat.pow_le_pow_right (by norm_num) h3
    simp only [one_mul] at h5
    omega
  simp only [strtolHex]
  split <;> omega

/-- Helper: a value token whose first character is a hash is neither
quote-wrapped nor an rgb()/rgba() form. -/
theorem hash_val_shape (val : List Char) (h : val.getD 0 (Char.ofNat 0) = '#') :
    val ≠ [] ∧ startsWithCs val rgbOpenTok = false ∧
      startsWithCs val rgbaOpenTok = false ∧
      ¬ (2 ≤ val.length ∧ val.getD 0 (Char.ofNat 0) = '"' ∧
          val.getD (val.length - 1) (Char.ofNat 0) = '"') := by
  cases val with
  | nil => simp [List.getD] at h
  | cons c rest =>
    simp only [List.getD_cons_zero] at h
    subst h
    refine ⟨by simp, by simp [startsWithCs, rgbOpenTok],
      by simp [startsWithCs, rgbaOpenTok], ?_⟩
    rintro ⟨-, h2, -⟩
    simp at h2

/-- C3 amended: the parser enforces no channel range in general (the CSV
and functional forms pass the tolerant integer parses through unchanged,
as the counterexample (999,0,0) shows); for the hex form #RRGGBB every
channel comes from at most two hexadecimal characters and therefore lies
in -255..255, the sign being possible because `strtol` accepts one. -/
theorem c3_hex_channels_bounded (val : List Char) (r g b : Int)
    (hhash : val.getD 0 (Char.ofNat 0) = '#')
    (hp : parseColorValue val = some (r, g, b)) :
    (-255 ≤ r ∧ r ≤ 255) ∧ (-255 ≤ g ∧ g ≤ 255) ∧ (-255 ≤ b ∧ b ≤ 255) := by
  obtain ⟨hne, hrgb, hrgba, hquote⟩ := hash_val_shape val hhash
  unfold parseColorValue at hp
  rw [if_neg hne, if_neg hquote] at hp
  rw [if_neg (by simp [hrgb, hrgba]), if_pos hhash] at hp
  by_cases hlen : val.length < 7
  · rw [if_pos hlen] at hp
    exact absurd hp (by simp)
  · rw [if_neg hlen] at hp
    injection hp with hp
    injection hp with hr hp
    injection hp with hg hb
    subst hr; subst hg; subst hb
    refine ⟨strtolHex_bound _ ?_, strtolHex_bound _ ?_, strtolHex_bound _ ?_⟩ <;>
      simp [substringCs]

/-- C3 amended witness: the hex bound applied to the concrete token
#0A0B0C, which parses to (10, 11, 12). -/
theorem c3_hex_channels_bounded_witness :
    parseColorValue ['#', '0', 'A', '0', 'B', '0', 'C'] = some (10, 11, 12) ∧
    (-255 ≤ (10 : Int) ∧ (10 : Int) ≤ 255) ∧ (-255 ≤ (11 : Int) ∧ (11 : Int) ≤ 255) ∧
      (-255 ≤ (12 : Int) ∧ (12 : Int) ≤ 255) :=
  ⟨by decide,
   c3_hex_channels_bounded ['#', '0', 'A', '0', 'B', '0', 'C'] 10 11 12
     (by decide) (by decide)⟩

/-- C4 counterexample: the empty string has length at most 2 and no
newline, yet the layout routine returns early with zero lines, no tier
selected, and no single line equal to the input, instead of an ExtraBig
single-line layout. -/
theorem c4_counterexample :
    ([] : List Char).length ≤ 2 ∧ indexOfChFrom [] '\n' 0 = none ∧
    analyseLayout (fun l => 10 * l.length) 160 [] = ⟨none, [], [], [], 0, false, []⟩ ∧
    (analyseLayout (fun l => 10 * l.length) 160 []).numLines ≠ 1 := by decide

/-- C4 amended: for every non-empty string without a newline the layout
tier is selected purely by character count, independently of the width
callback, each case producing a single-line layout whose line equals the
input unchanged: length 1 to 2 selects ExtraBig, length 3 selects Ultra,
length 4 to 6 selects Large; the empty string instead yields the empty
zero-line layout with no tier selected. -/
theorem c4_single_line_tiers (tw : List Char → Nat) (screenW : Nat) (s : List Char)
    (hne : s ≠ []) (hnl : indexOfChFrom s '\n' 0 = none) :
    (s.length ≤ 2 →
      analyseLayout tw screenW s = ⟨some Tier.extraBig, s, [], [], 1, false, []⟩) ∧
    (s.length = 3 →
      analyseLayout tw screenW s = ⟨some Tier.ultra, s, [], [], 1, false, []⟩) ∧
    (4 ≤ s.length → s.length ≤ 6 →
      analyseLayout tw screenW s = ⟨some Tier.large, s, [], [], 1, false, []⟩) := by
  have h0 : ¬ s.length = 0 := by
    simpa [List.length_eq_zero] using hne
  have h1 : ¬ (indexOfChFrom s '\n' 0).isSome = true := by simp [hnl]
  refine ⟨fun h2 => ?_, fun h3 => ?_, fun h4 h5 => ?_⟩
  · unfold analyseLayout
    rw [if_neg h0, if_neg h1, if_pos h2]
  · unfold analyseLayout
    rw [if_neg h0, if_neg h1, if_neg (by omega), if_pos h3]
  · unfold analyseLayout
    rw [if_neg h0, if_neg h1, if_neg (by omega), if_neg (by omega), if_pos h5]

/-- C4 witness: the tier selection applied to the concrete inputs GO, SET
and LABEL with a width callback proportional to length. -/
theorem c4_single_line_tiers_witness :
    analyseLayout (fun l => 10 * l.length) 160 ['G', 'O']
      = ⟨some Tier.extraBig, ['G', 'O'], [], [], 1, false, []⟩ ∧
    analyseLayout (fun l => 10 * l.length) 160 ['S', 'E', 'T']
      = ⟨some Tier.ultra, ['S', 'E', 'T'], [], [], 1, false, []⟩ ∧
    analyseLayout (fun l => 10 * l.length) 160 ['L', 'A', 'B', 'E', 'L']
      = ⟨some Tier.large, ['L', 'A', 'B', 'E', 'L'], [], [], 1, false, []⟩ :=
  ⟨(c4_single_line_tiers (fun l => 10 * l.length) 160 ['G', 'O']
      (by decide) (by decide)).1 (by decide),
   (c4_single_line_tiers (fun l => 10 * l.length) 160 ['S', 'E', 'T']
      (by decide) (by decide)).2.1 (by decide),
   (c4_single_line_tiers (fun l => 10 * l.length) 160 ['L', 'A', 'B', 'E', 'L']
      (by decide) (by decide)).2.2 (by decide) (by decide)⟩

/-- C5: for every string longer than 6 characters without a newline, if the
greedy word wrap fails (more lines needed than the cap allows), the layout
falls back to a single unwrapped line equal to the full input string in the
normal font, never an error: the layout function is total and returns the
clipped single-line state. -/
theorem c5_wrap_failure_clipped_fallback (tw : List Char → Nat) (screenW : Nat)
    (s : List Char) (hlen : 6 < s.length) (hnl : indexOfChFrom s '\n' 0 = none)
    (hwrap : wrapToLines tw screenW s = none) :
    analyseLayout tw screenW s = ⟨some Tier.normal, s, [], [], 1, false, []⟩ := by
  have h0 : ¬ s.length = 0 := by omega
  have h1 : ¬ (indexOfChFrom s '\n' 0).isSome = true := by simp [hnl]
  unfold analyseLayout
  rw [if_neg h0, if_neg h1, if_neg (by omega), if_neg (by omega), if_neg (by omega),
    hwrap]

/-- C5 witness: the fallback applied to HELLO WORLD THIS IS A LONG LABEL at
width 160 under a measurement that makes every candidate too wide, where
the wrap fails and one clipped line is produced. -/
theorem c5_wrap_failure_clipped_fallback_witness :
    analyseLayout (fun _ => 1000) 160
        ['H', 'E', 'L', 'L', 'O', ' ', 'W', 'O', 'R', 'L', 'D', ' ', 'T', 'H', 'I',
         'S', ' ', 'I', 'S', ' ', 'A', ' ', 'L', 'O', 'N', 'G', ' ', 'L', 'A', 'B',
         'E', 'L']
      = ⟨some Tier.normal,
         ['H', 'E', 'L', 'L', 'O', ' ', 'W', 'O', 'R', 'L', 'D', ' ', 'T', 'H', 'I',
          'S', ' ', 'I', 'S', ' ', 'A', ' ', 'L', 'O', 'N', 'G', ' ', 'L', 'A', 'B',
          'E', 'L'], [], [], 1, false, []⟩ :=
  c5_wrap_failure_clipped_fallback (fun _ => 1000) 160
    ['H', 'E', 'L', 'L', 'O', ' ', 'W', 'O', 'R', 'L', 'D', ' ', 'T', 'H', 'I',
     'S', ' ', 'I', 'S', ' ', 'A', ' ', 'L', 'O', 'N', 'G', ' ', 'L', 'A', 'B',
     'E', 'L'] (by decide) (by decide) (by decide)

/-- C6: for every non-empty text token, a character outside the base64
alphabet (ignoring padding) makes the companion-text decoder return the
token unchanged, and an empty base64 decode of a non-empty token also
falls back to the raw token. -/
theorem c6_companion_text_fallbacks :
    (∀ enc : List Char, enc ≠ [] → (∃ c ∈ enc, isB64CharOrPad c = false) →
      decodeCompanionText enc = enc) ∧
    (∀ enc : List Char, enc ≠ [] → decodeBase64 enc = [] →
      decodeCompanionText enc = enc) := by
  constructor
  · intro enc hne hbad
    have hlen : ¬ enc.length = 0 := by
      simpa [List.length_eq_zero] using hne
    have hall : enc.all isB64CharOrPad = false := by
      obtain ⟨c, hc, hcf⟩ := hbad
      rcases hcases : enc.all isB64CharOrPad with _ | _
      · rfl
      · have := (List.all_eq_true.mp hcases) c hc
        rw [hcf] at this
        exact absurd this (by simp)
    unfold decodeCompanionText
    rw [if_neg hlen, if_pos hall]
  · intro enc hne hdec
    have hlen : ¬ enc.length = 0 := by
      simpa [List.length_eq_zero] using hne
    unfold decodeCompanionText
    rw [if_neg hlen]
    rcases hall : enc.all isB64CharOrPad with _ | _
    · rw [if_pos rfl]
    · rw [if_neg (by simp), hdec]
      simp

/-- C6 witness: the fallbacks applied to the concrete tokens hi! (which
contains the non-alphabet character !) and =A (which decodes to nothing
because the padding character terminates decoding immediately). -/
theorem c6_companion_text_fallbacks_witness :
    decodeCompanionText ['h', 'i', '!'] = ['h', 'i', '!'] ∧
    decodeCompanionText ['=', 'A'] = ['=', 'A'] :=
  ⟨c6_companion_text_fallbacks.1 ['h', 'i', '!'] (by decide)
     ⟨'!', by decide, by decide⟩,
   c6_companion_text_fallbacks.2 ['=', 'A'] (by decide) (by decide)⟩

/-- C10: for every newline-free string longer than 6 characters whose
greedy word wrap succeeds with k lines for 4 up to the cap of 7, the layout
stores only the first three wrapped lines with the full count k, and the
renderer draws exactly three lines while centering the block as if all k
lines were present (the block height in the top-line position is lineHeight
times k); the words placed on lines 4 through k are never drawn. -/
theorem c10_wrap_overflow_draws_three (tw : List Char → Nat) (screenW : Nat)
    (s l1 l2 l3 : List Char) (k : Nat) (lineHeight dispW dispH : Int)
    (hlen : 6 < s.length) (hnl : indexOfChFrom s '\n' 0 = none)
    (hwrap : wrapToLines tw screenW s = some (l1, l2, l3, k))
    (hk4 : 4 ≤ k) (hk7 : k ≤ MAX_AUTO_LINES) :
    analyseLayout tw screenW s = ⟨some Tier.normal, l1, l2, l3, k, false, []⟩ ∧
    refreshTextDisplay lineHeight dispW dispH s
        ⟨some Tier.normal, l1, l2, l3, k, false, []⟩ =
      [⟨l1, Int.tdiv dispW 2,
          Int.tdiv (dispH - lineHeight * (k : Int)) 2 + Int.tdiv lineHeight 2⟩,
       ⟨l2, Int.tdiv dispW 2,
          Int.tdiv (dispH - lineHeight * (k : Int)) 2 + Int.tdiv lineHeight 2
            + lineHeight⟩,
       ⟨l3, Int.tdiv dispW 2,
          Int.tdiv (dispH - lineHeight * (k : Int)) 2 + Int.tdiv lineHeight 2
            + 2 * lineHeight⟩] := by
  have h0 : ¬ s.length = 0 := by omega
  have h1 : ¬ (indexOfChFrom s '\n' 0).isSome = true := by simp [hnl]
  have hMAX : MAX_AUTO_LINES = 7 := rfl
  constructor
  · unfold analyseLayout
    rw [if_neg h0, if_neg h1, if_neg (by omega), if_neg (by omega), if_neg (by omega),
      hwrap]
    dsimp only
    rw [if_pos (by omega), if_pos (by omega), if_pos (by omega)]
  · unfold refreshTextDisplay
    rw [if_neg h0]
    dsimp only
    rw [if_neg (by simp), if_neg (by omega), if_neg (by omega), if_neg (by omega),
      if_pos (by refine ⟨by omega, by omega⟩)]
    have hmin : min k 3 = 3 := by
      rw [hMAX] at hk7
      omega
    rw [hmin]
    simp [List.range_succ]

/-- C10 witness: the truncation applied to AAAA BBBB CCCC DDDD at wrap
width 160 with a 30-pixels-per-character measurement (so the wrap yields 4
lines), drawn with line height 24 on a 160 by 80 display: exactly three
lines are drawn and the top line sits at the position computed for a
4-line block. -/
theorem c10_wrap_overflow_draws_three_witness :
    analyseLayout (fun l => 30 * l.length) 160
        ['A', 'A', 'A', 'A', ' ', 'B', 'B', 'B', 'B', ' ', 'C', 'C', 'C', 'C', ' ',
         'D', 'D', 'D', 'D']
      = ⟨some Tier.normal, ['A', 'A', 'A', 'A'], ['B', 'B', 'B', 'B'],
         ['C', 'C', 'C', 'C'], 4, false, []⟩ ∧
    refreshTextDisplay 24 160 80
        ['A', 'A', 'A', 'A', ' ', 'B', 'B', 'B', 'B', ' ', 'C', 'C', 'C', 'C', ' ',
         'D', 'D', 'D', 'D']
        ⟨some Tier.normal, ['A', 'A', 'A', 'A'], ['B', 'B', 'B', 'B'],
         ['C', 'C', 'C', 'C'], 4, false, []⟩ =
      [⟨['A', 'A', 'A', 'A'], 80, Int.tdiv (80 - 24 * (4 : Int)) 2 + Int.tdiv 24 2⟩,
       ⟨['B', 'B', 'B', 'B'], 80, Int.tdiv (80 - 24 * (4 : Int)) 2 + Int.tdiv 24 2 + 24⟩,
       ⟨['C', 'C', 'C', 'C'], 80,
          Int.tdiv (80 - 24 * (4 : Int)) 2 + Int.tdiv 24 2 + 2 * 24⟩] := by
  have h := c10_wrap_overflow_draws_three (fun l => 30 * l.length) 160
    ['A', 'A', 'A', 'A', ' ', 'B', 'B', 'B', 'B', ' ', 'C', 'C', 'C', 'C', ' ',
     'D', 'D', 'D', 'D']
    ['A', 'A', 'A', 'A'] ['B', 'B', 'B', 'B'] ['C', 'C', 'C', 'C'] 4 24 160 80
    (by decide) (by decide) (by decide) (by decide) (by decide)
  exact ⟨h.1, h.2.trans (by decide)⟩

/-- Helper: no character of the base64 table is the padding character. -/
theorem b64Tbl_ne_pad : ∀ i : Nat, i < 64 → b64Tbl i ≠ '=' := by decide

/-- Helper: `b64Index` inverts the table on indices below 64. -/
theorem b64Index_tbl : ∀ i : Nat, i < 64 → b64Index (b64Tbl i) = (i : Int) := by decide

/-- Helper: one iteration of the decode loop on a table character. -/
theorem decodeLoop_step (i : Nat) (hi : i < 64) (cs : List Char) (v : Nat) (vb : Int) :
    decodeB64Loop (b64Tbl i :: cs) v vb =
      if 0 ≤ vb + 6 then
        ((v * 64 + i) % 4294967296 / 2 ^ (vb + 6).toNat % 256)
          :: decodeB64Loop cs ((v * 64 + i) % 4294967296) (vb + 6 - 8)
      else decodeB64Loop cs ((v * 64 + i) % 4294967296) (vb + 6) := by
  conv_lhs => rw [decodeB64Loop]
  rw [if_neg (b64Tbl_ne_pad i hi), b64Index_tbl i hi,
    if_neg (by omega : ¬ (i : Int) < 0)]
  simp only [Int.toNat_natCast]

/-- Helper: the byte emitted with two pending bits depends only on those
bits of the accumulator. -/
theorem b64Out_mod_4 (v w t : Nat) (h : v % 4 = w % 4) :
    (v * 64 + t) % 4294967296 % 256 = (w * 64 + t) % 4294967296 % 256 := by omega

/-- Helper: the byte emitted with four pending bits depends only on those
bits of the accumulator. -/
theorem b64Out_mod_16 (v w t : Nat) (h : v % 16 = w % 16) :
    (v * 64 + t) % 4294967296 / 4 % 256 = (w * 64 + t) % 4294967296 / 4 % 256 := by omega

/-- Helper: the byte emitted with six pending bits depends only on those
bits of the accumulator. -/
theorem b64Out_mod_64 (v w t : Nat) (h : v % 64 = w % 64) :
    (v * 64 + t) % 4294967296 / 16 % 256 = (w * 64 + t) % 4294967296 / 16 % 256 := by
  omega

/-- Helper: between characters the decode loop only depends on the bits of
the accumulator that the bit counter says are still pending: with counter
-8, -6, -4 or -2 the pending bits are the low 0, 2, 4 or 6 bits. -/
theorem decodeLoop_congr : ∀ (cs : List Char) (vb : Int) (v w : Nat),
    (vb = -8 ∧ v % 1 = w % 1) ∨ (vb = -6 ∧ v % 4 = w % 4) ∨
      (vb = -4 ∧ v % 16 = w % 16) ∨ (vb = -2 ∧ v % 64 = w % 64) →
    decodeB64Loop cs v vb = decodeB64Loop cs w vb := by
  intro cs
  induction cs with
  | nil => intro vb v w _; rfl
  | cons c rest ih =>
    intro vb v w hvw
    unfold decodeB64Loop
    by_cases hc : c = '='
    · rw [if_pos hc, if_pos hc]
    · rw [if_neg hc, if_neg hc]
      by_cases hidx : b64Index c < 0
      · rw [if_pos hidx, if_pos hidx]
      · rw [if_neg hidx, if_neg hidx]
        rcases hvw with ⟨rfl, hm⟩ | ⟨rfl, hm⟩ | ⟨rfl, hm⟩ | ⟨rfl, hm⟩
        · rw [if_neg (by norm_num), if_neg (by norm_num)]
          exact ih (-8 + 6) ((v * 64 + (b64Index c).toNat) % 4294967296)
            ((w * 64 + (b64Index c).toNat) % 4294967296)
            (Or.inr (Or.inr (Or.inr ⟨by norm_num, by omega⟩)))
        · rw [if_pos (by norm_num), if_pos (by norm_num),
            (by decide : ((-6 : Int) + 6).toNat = 0), pow_zero, Nat.div_one,
            Nat.div_one, b64Out_mod_4 v w ((b64Index c).toNat) hm,
            ih (-6 + 6 - 8) ((v * 64 + (b64Index c).toNat) % 4294967296)
              ((w * 64 + (b64Index c).toNat) % 4294967296)
              (Or.inl ⟨by norm_num, by omega⟩)]
        · rw [if_pos (by norm_num), if_pos (by norm_num),
            (by decide : ((-4 : Int) + 6).toNat = 2),
            (by decide : (2 : Nat) ^ 2 = 4),
            b64Out_mod_16 v w ((b64Index c).toNat) hm,
            ih (-4 + 6 - 8) ((v * 64 + (b64Index c).toNat) % 4294967296)
              ((w * 64 + (b64Index c).toNat) % 4294967296)
              (Or.inr (Or.inl ⟨by norm_num, by omega⟩))]
        · rw [if_pos (by norm_num), if_pos (by norm_num),
            (by decide : ((-2 : Int) + 6).toNat = 4),
            (by decide : (2 : Nat) ^ 4 = 16),
            b64Out_mod_64 v w ((b64Index c).toNat) hm,
            ih (-2 + 6 - 8) ((v * 64 + (b64Index c).toNat) % 4294967296)
              ((w * 64 + (b64Index c).toNat) % 4294967296)
              (Or.inr (Or.inr (Or.inl ⟨by norm_num, by omega⟩)))]

/-- Helper: with no pending bits the accumulator content is irrelevant to
the rest of the decode. -/
theorem decodeLoop_reset (cs : List Char) (v : Nat) :
    decodeB64Loop cs v (-8) = decodeB64Loop cs 0 (-8) :=
  decodeLoop_congr cs (-8) v 0 (Or.inl ⟨rfl, by omega⟩)

/-- Helper: a padding character terminates decoding immediately, in any
loop state. -/
theorem decodeLoop_pad (cs : List Char) (v : Nat) (vb : Int) :
    decodeB64Loop ('=' :: cs) v vb = [] := by
  unfold decodeB64Loop
  rw [if_pos rfl]

/-- Helper: the first emitted byte of a chunk is the first input byte. -/
theorem chunk_out1 (a b : Nat) (ha : a < 256) (hb : b < 256) :
    ((0 * 64 + a / 4) % 4294967296 * 64 + (a % 4 * 16 + b / 16)) % 4294967296 / 16 % 256
      = a := by omega

/-- Helper: the second emitted byte of a chunk is the second input byte. -/
theorem chunk_out2 (a b c : Nat) (_ha : a < 256) (hb : b < 256) (hc : c < 256) :
    ((((0 * 64 + a / 4) % 4294967296 * 64 + (a % 4 * 16 + b / 16)) % 4294967296) * 64
        + (b % 16 * 4 + c / 64)) % 4294967296 / 4 % 256 = b := by omega

/-- Helper: the third emitted byte of a chunk is the third input byte. -/
theorem chunk_out3 (a b c : Nat) (_ha : a < 256) (_hb : b < 256) (hc : c < 256) :
    (((((0 * 64 + a / 4) % 4294967296 * 64 + (a % 4 * 16 + b / 16)) % 4294967296) * 64
        + (b % 16 * 4 + c / 64)) % 4294967296 * 64 + c % 64) % 4294967296 % 256 = c := by
  omega

/-- Helper: the single byte of a one-byte tail survives the round trip. -/
theorem tail1_out (a : Nat) (ha : a < 256) :
    ((0 * 64 + a / 4) % 4294967296 * 64 + a % 4 * 16) % 4294967296 / 16 % 256 = a := by
  omega

/-- Helper: the second byte of a two-byte tail survives the round trip. -/
theorem tail2_out (a b : Nat) (_ha : a < 256) (hb : b < 256) :
    ((((0 * 64 + a / 4) % 4294967296 * 64 + (a % 4 * 16 + b / 16)) % 4294967296) * 64
        + b % 16 * 4) % 4294967296 / 4 % 256 = b := by omega

/-- Helper: decoding a full four-character chunk yields the three encoded
bytes and restarts the loop cleanly. -/
theorem decode_encode_chunk (a b c : Nat) (ha : a < 256) (hb : b < 256) (hc : c < 256)
    (cs : List Char) :
    decodeB64Loop (b64Tbl (a / 4) :: b64Tbl (a % 4 * 16 + b / 16) ::
        b64Tbl (b % 16 * 4 + c / 64) :: b64Tbl (c % 64) :: cs) 0 (-8) =
      a :: b :: c :: decodeB64Loop cs 0 (-8) := by
  rw [decodeLoop_step (a / 4) (by omega) _ 0 (-8), if_neg (by norm_num)]
  rw [decodeLoop_step (a % 4 * 16 + b / 16) (by omega) _ _ (-8 + 6),
    if_pos (by norm_num)]
  rw [decodeLoop_step (b % 16 * 4 + c / 64) (by omega) _ _ (-8 + 6 + 6 - 8),
    if_pos (by norm_num)]
  rw [decodeLoop_step (c % 64) (by omega) _ _ (-8 + 6 + 6 - 8 + 6 - 8),
    if_pos (by norm_num)]
  rw [(by decide : ((-8 : Int) + 6 + 6).toNat = 4),
    (by decide : ((-8 : Int) + 6 + 6 - 8 + 6).toNat = 2),
    (by decide : ((-8 : Int) + 6 + 6 - 8 + 6 - 8 + 6).toNat = 0),
    (by decide : (2 : Nat) ^ 4 = 16), (by decide : (2 : Nat) ^ 2 = 4), pow_zero,
    Nat.div_one,
    (by norm_num : (-8 : Int) + 6 + 6 - 8 + 6 - 8 + 6 - 8 = -8),
    chunk_out1 a b ha hb, chunk_out2 a b c ha hb hc, chunk_out3 a b c ha hb hc,
    decodeLoop_reset cs]

/-- Helper: decoding an encoded one-byte tail yields that byte. -/
theorem decode_encode_tail1 (a : Nat) (ha : a < 256) :
    decodeB64Loop (b64Tbl (a / 4) :: b64Tbl (a % 4 * 16) :: '=' :: '=' :: []) 0 (-8)
      = [a] := by
  rw [decodeLoop_step (a / 4) (by omega) _ 0 (-8), if_neg (by norm_num)]
  rw [decodeLoop_step (a % 4 * 16) (by omega) _ _ (-8 + 6), if_pos (by norm_num)]
  rw [decodeLoop_pad, (by decide : ((-8 : Int) + 6 + 6).toNat = 4),
    (by decide : (2 : Nat) ^ 4 = 16), tail1_out a ha]

/-- Helper: decoding an encoded two-byte tail yields those bytes. -/
theorem decode_encode_tail2 (a b : Nat) (ha : a < 256) (hb : b < 256) :
    decodeB64Loop (b64Tbl (a / 4) :: b64Tbl (a % 4 * 16 + b / 16) ::
        b64Tbl (b % 16 * 4) :: '=' :: []) 0 (-8) = [a, b] := by
  rw [decodeLoop_step (a / 4) (by omega) _ 0 (-8), if_neg (by norm_num)]
  rw [decodeLoop_step (a % 4 * 16 + b / 16) (by omega) _ _ (-8 + 6),
    if_pos (by norm_num)]
  rw [decodeLoop_step (b % 16 * 4) (by omega) _ _ (-8 + 6 + 6 - 8),
    if_pos (by norm_num)]
  rw [decodeLoop_pad, (by decide : ((-8 : Int) + 6 + 6).toNat = 4),
    (by decide : ((-8 : Int) + 6 + 6 - 8 + 6).toNat = 2),
    (by decide : (2 : Nat) ^ 4 = 16), (by decide : (2 : Nat) ^ 2 = 4),
    chunk_out1 a b ha hb, tail2_out a b ha hb]

/-- Helper: the firmware decoder inverts the standard encoder on every
byte list. -/
theorem decode_encodeBase64 : ∀ (x : List Nat), (∀ y ∈ x, y < 256) →
    decodeBase64 (encodeBase64 x) = x
  | [], _ => rfl
  | [a], h => by
    have ha : a < 256 := h a (by simp)
    show decodeB64Loop
      (b64Tbl (a / 4) :: b64Tbl (a % 4 * 16) :: '=' :: '=' :: []) 0 (-8) = [a]
    exact decode_encode_tail1 a ha
  | [a, b], h => by
    have ha : a < 256 := h a (by simp)
    have hb : b < 256 := h b (by simp)
    show decodeB64Loop (b64Tbl (a / 4) :: b64Tbl (a % 4 * 16 + b / 16) ::
      b64Tbl (b % 16 * 4) :: '=' :: []) 0 (-8) = [a, b]
    exact decode_encode_tail2 a b ha hb
  | a :: b :: c :: rest, h => by
    have ha : a < 256 := h a (by simp)
    have hb : b < 256 := h b (by simp)
    have hc : c < 256 := h c (by simp)
    have ih : decodeB64Loop (encodeBase64 rest) 0 (-8) = rest :=
      decode_encodeBase64 rest (fun y hy => h y (by simp [hy]))
    show decodeB64Loop (b64Tbl (a / 4) :: b64Tbl (a % 4 * 16 + b / 16) ::
      b64Tbl (b % 16 * 4 + c / 64) :: b64Tbl (c % 64) :: encodeBase64 rest) 0 (-8)
      = a :: b :: c :: rest
    rw [decode_encode_chunk a b c ha hb hc (encodeBase64 rest), ih]

/-- C7: decoding the standard base64 encoding of any byte string with the
lenient firmware decoder yields exactly the original bytes, and the
padding character terminates decoding immediately (returning what was
accumulated) rather than being an error. -/
theorem c7_base64_roundtrip :
    (∀ x : List Nat, (∀ y ∈ x, y < 256) → decodeBase64 (encodeBase64 x) = x) ∧
    (∀ (cs : List Char) (v : Nat) (vb : Int), decodeB64Loop ('=' :: cs) v vb = []) :=
  ⟨decode_encodeBase64, decodeLoop_pad⟩

/-- C7 witness: the round trip applied to the concrete byte strings
[77, 5, 200, 255, 0] and [84, 69, 83, 84] (the bytes of TEST, whose
encoding VEVTVA== carries padding), and the padding cutoff applied to a
concrete loop state. -/
theorem c7_base64_roundtrip_witness :
    decodeBase64 (encodeBase64 [77, 5, 200, 255, 0]) = [77, 5, 200, 255, 0] ∧
    decodeBase64 (encodeBase64 [84, 69, 83, 84]) = [84, 69, 83, 84] ∧
    decodeB64Loop ['=', 'A'] 3 (-4) = [] :=
  ⟨c7_base64_roundtrip.1 [77, 5, 200, 255, 0] (by decide),
   c7_base64_roundtrip.1 [84, 69, 83, 84] (by decide),
   c7_base64_roundtrip.2 ['A'] 3 (-4)⟩

end Satellite
